import Mathlib

/-!
Verification development for the chat-ontology-builder backend.

The Python source is shallowly embedded in Lean:
* Python/JSON scalar values that can appear in a property map are `PValue`
  (strings, numbers as rationals, booleans, `None`).
* A Python `dict` used as a property map is `PropMap`, an association list
  with insertion-order semantics and unique-key updates, mirroring `dict`
  assignment (`setKey`), `k in d` (`hasKey`) and `d.get(k)` (`pyGet`,
  which returns `None`/`PValue.null` for a missing key exactly as Python does).
* `src/validation/kantian_validator.py` is embedded as `validate_concept`
  and `validate_relationship`; a raised `KantianValidationError` becomes
  `Except.error` carrying the exception's `field` tag (the human-readable
  message string of the Python exception is not modelled; every claim
  concerns only the field tag).
-/

/-- A Python/JSON scalar value stored in a property map.  Numbers are
modelled as rationals (the source only ever compares them for presence,
never for floating-point arithmetic).  `null` models Python `None`. -/
inductive PValue where
  | s (v : String)
  | num (v : Rat)
  | b (v : Bool)
  | null
deriving DecidableEq, Repr

/-- A Python `dict` used as a property map: an insertion-ordered
association list.  All constructors used in the source keep keys unique. -/
abbrev PropMap := List (String × PValue)

/-- Python `k in d`. -/
def hasKey (m : PropMap) (k : String) : Bool :=
  (m.find? (fun kv => kv.1 == k)).isSome

/-- Python `d.get(k)`: the stored value, or `None` when the key is absent.
Like Python's `dict.get`, this conflates an absent key with a stored `None`. -/
def pyGet (m : PropMap) (k : String) : PValue :=
  match m.find? (fun kv => kv.1 == k) with
  | some kv => kv.2
  | none => PValue.null

/-- Python `d[k] = v`: replace the value of an existing key in place,
otherwise append the new key at the end (dict insertion order). -/
def setKey : PropMap → String → PValue → PropMap
  | [], k, v => [(k, v)]
  | kv :: rest, k, v => if kv.1 == k then (k, v) :: rest else kv :: setKey rest k v

/-- Removal of a key (Cypher `SET r.k = null` removes the property). -/
def eraseKey (m : PropMap) (k : String) : PropMap :=
  m.filter (fun kv => !(kv.1 == k))

/-- Cypher property-merge semantics shared by `SET r.k = $k` (one clause per
key of the payload, built in `update_relationship`) and `SET c += $map`
(in `UPDATE_CONCEPT_PARTIAL`): each non-null payload value overwrites the
property, a null payload value removes it. -/
def cypherMerge (base payload : PropMap) : PropMap :=
  payload.foldl (fun acc kv => if kv.2 == PValue.null then eraseKey acc kv.1 else setKey acc kv.1 kv.2) base

/-- `KantianValidationError` of `src/validation/kantian_validator.py`,
reduced to its `field` tag (claims never mention the message text). -/
structure KErr where
  field : Option String
deriving DecidableEq, Repr

/-- `KantianValidator.ALLOWED_QUALITIES`. -/
def ALLOWED_QUALITIES : List String := ["Reality", "Negation", "Limitation"]

/-- `KantianValidator.ALLOWED_MODALITIES`. -/
def ALLOWED_MODALITIES : List String :=
  ["Possibility/Impossibility", "Existence/Non-existence", "Necessity/Contingency"]

/-- `KantianValidator.ALLOWED_SPATIAL_UNITS`. -/
def ALLOWED_SPATIAL_UNITS : List String :=
  ["meters", "kilometers", "miles", "feet", "inches", "centimeters", "millimeters"]

/-- `KantianValidator.ALLOWED_SPATIAL_RELATION_TYPES`. -/
def ALLOWED_SPATIAL_RELATION_TYPES : List String :=
  ["near", "far", "contains", "within", "overlaps", "intersects", "disjoint",
   "above", "below", "left", "right", "front", "back"]

/-- Python `v in S` for a set `S` of strings: only an equal string is a
member; any non-string value (including `None`) is not. -/
def pvalueInStrSet (v : PValue) (allowed : List String) : Bool :=
  match v with
  | PValue.s u => allowed.contains u
  | _ => false

/-- `KantianValidator._validate_quality`: `None` passes, otherwise the value
must be in the allowed set. -/
def validate_quality (v : PValue) : Except KErr Unit :=
  if v == PValue.null then Except.ok ()
  else if pvalueInStrSet v ALLOWED_QUALITIES then Except.ok ()
  else Except.error ⟨some "quality"⟩

/-- `KantianValidator._validate_modality`. -/
def validate_modality (v : PValue) : Except KErr Unit :=
  if v == PValue.null then Except.ok ()
  else if pvalueInStrSet v ALLOWED_MODALITIES then Except.ok ()
  else Except.error ⟨some "modality"⟩

/-- `KantianValidator.validate_concept`: quality first, then modality
(first violation short-circuits). -/
def validate_concept (concept_data : PropMap) : Except KErr Unit := do
  validate_quality (pyGet concept_data "quality")
  validate_modality (pyGet concept_data "modality")

/-- `KantianValidator.validate_relationship`.  For `SPATIALLY_RELATES_TO`:
check 1 (`distance` present without `spatial_unit`) and check 2 (present
`spatial_unit` must be allowed) form an if/elif pair; check 3 (present
`relation_type` must be allowed) is an independent subsequent `if`.
Other relationship types have no rules. -/
def validate_relationship (rel_type : String) (properties : PropMap) : Except KErr Unit :=
  if rel_type == "SPATIALLY_RELATES_TO" then do
    (if hasKey properties "distance" && !hasKey properties "spatial_unit" then
      Except.error ⟨some "spatial_unit"⟩
    else if hasKey properties "spatial_unit" then
      (if pvalueInStrSet (pyGet properties "spatial_unit") ALLOWED_SPATIAL_UNITS then
        Except.ok ()
      else Except.error ⟨some "spatial_unit"⟩)
    else Except.ok ())
    (if hasKey properties "relation_type" then
      (if pvalueInStrSet (pyGet properties "relation_type") ALLOWED_SPATIAL_RELATION_TYPES then
        Except.ok ()
      else Except.error ⟨some "relation_type"⟩)
    else Except.ok ())
  else Except.ok ()

/-- Does a validation result reject with the given field tag? -/
def rejectsWithField (r : Except KErr Unit) (f : String) : Bool :=
  match r with
  | Except.error e => e.field == some f
  | Except.ok _ => false

/-- Is the validation result a success? -/
def validationOk (r : Except KErr Unit) : Bool :=
  match r with
  | Except.ok _ => true
  | Except.error _ => false

/-- Spec-side condition: `distance` present while `spatial_unit` absent. -/
def distanceWithoutUnit (p : PropMap) : Bool :=
  hasKey p "distance" && !hasKey p "spatial_unit"

/-- Spec-side condition: `spatial_unit` present but outside the allowed set. -/
def badSpatialUnit (p : PropMap) : Bool :=
  hasKey p "spatial_unit" && !pvalueInStrSet (pyGet p "spatial_unit") ALLOWED_SPATIAL_UNITS

/-- Spec-side condition: `relation_type` present but outside the allowed set. -/
def badSpatialRelationType (p : PropMap) : Bool :=
  hasKey p "relation_type" && !pvalueInStrSet (pyGet p "relation_type") ALLOWED_SPATIAL_RELATION_TYPES

/-- Spec-side condition: `quality` carries a (non-null) value outside the
allowed quality set. -/
def qualityViolation (p : PropMap) : Bool :=
  !(pyGet p "quality" == PValue.null) && !pvalueInStrSet (pyGet p "quality") ALLOWED_QUALITIES

/-!
Embedding of `src/models/concept.py` (the `Concept` Pydantic model) and
`src/models/path.py` (`Relationship`, `PathResponse`,
`PathResponse.from_neo4j_path`).

`convert_neo4j_datetimes` (src/utils/converters.py) only rewrites Neo4j
temporal objects into native ones; `PValue` has no temporal constructor,
so on embedded values the conversion is the identity and is omitted.
-/

/-- `src/models/concept.py::Concept` (the name `Concept` is taken by Mathlib).  `id` and `name` are required,
everything else optional; `confidence_score` has alias `confidence`. -/
structure ConceptModel where
  id : String
  elementId : Option String
  name : String
  description : Option String
  quality : Option String
  modality : Option String
  stability : Option String
  confidence_score : Option Rat
  created_at : Option String
deriving DecidableEq, Repr

/-- Pydantic: an optional `str` field accepts an absent key, `None`, or a
string; any other value fails validation. -/
def optStrField (v : PValue) : Option (Option String) :=
  match v with
  | PValue.null => some none
  | PValue.s x => some (some x)
  | _ => none

/-- Pydantic: an optional `float` field accepts an absent key, `None`, or a
number. -/
def optNumField (v : PValue) : Option (Option Rat) :=
  match v with
  | PValue.null => some none
  | PValue.num x => some (some x)
  | _ => none

/-- `Concept.model_validate` on a property dict: succeeds iff the required
string fields `id` and `name` are present and every optional field is
absent, `None`, or of the declared scalar type.  With
`populate_by_name = True` the `confidence` alias takes precedence over the
field name `confidence_score`. -/
def ConceptModel.modelValidate (d : PropMap) : Option ConceptModel :=
  match pyGet d "id", pyGet d "name",
        optStrField (pyGet d "elementId"), optStrField (pyGet d "description"),
        optStrField (pyGet d "quality"), optStrField (pyGet d "modality"),
        optStrField (pyGet d "stability"),
        optNumField (if hasKey d "confidence" then pyGet d "confidence" else pyGet d "confidence_score"),
        optStrField (pyGet d "created_at") with
  | PValue.s i, PValue.s n, some eid, some de, some q, some mo, some st, some cf, some ca =>
      some ⟨i, eid, n, de, q, mo, st, cf, ca⟩
  | _, _, _, _, _, _, _, _, _ => none

/-- One element of the flat Neo4j path list (`List[Union[Dict, str]]`):
either a node dict or a relationship-type string. -/
inductive PElem where
  | dict (d : PropMap)
  | str (v : String)
deriving DecidableEq, Repr

/-- `src/models/path.py::Relationship` (a relationship within a path). -/
structure Relationship where
  id : Option Int
  start_node_id : String
  end_node_id : String
  type : String
  properties : PropMap
deriving DecidableEq, Repr

/-- `src/models/path.py::PathResponse`. -/
structure PathResponse where
  nodes : List ConceptModel
  relationships : List Relationship
deriving DecidableEq, Repr

/-- Python truthiness of the `elementId` lookup in `from_neo4j_path`
(`if node_element_id and ...`): usable iff it is a non-empty string. -/
def truthyEid (d : PropMap) : Option String :=
  match pyGet d "elementId" with
  | PValue.s v => if v == "" then none else some v
  | _ => none

/-- The elements at even indices of the path list, keeping only dicts:
the node-extraction loop `for i in range(0, len(path_data), 2)` guarded by
`isinstance(path_data[i], dict)`. -/
def collectNodePairs : List PElem → List PropMap
  | [] => []
  | [x] => (match x with | PElem.dict d => [d] | _ => [])
  | x :: _ :: rest => (match x with | PElem.dict d => [d] | _ => []) ++ collectNodePairs rest

/-- The loop body of node registration: skip when the element id is falsy
or already registered, skip when `Concept.model_validate` fails, otherwise
append to the insertion-ordered identity-keyed map. -/
def registerNode (m : List (String × ConceptModel)) (d : PropMap) : List (String × ConceptModel) :=
  match truthyEid d with
  | none => m
  | some eid =>
    if (m.find? (fun kv => kv.1 == eid)).isSome then m
    else match ConceptModel.modelValidate d with
         | some c => m ++ [(eid, c)]
         | none => m

/-- `nodes_map` after the node-extraction loop. -/
def buildNodesMap (ds : List PropMap) : List (String × ConceptModel) :=
  ds.foldl registerNode []

/-- The overlapping stride-2 triples `(path_data[i], path_data[i+1],
path_data[i+2])` for `i in range(0, len(path_data) - 2, 2)`. -/
def collectTriples : List PElem → List (PElem × PElem × PElem)
  | a :: b :: rest =>
    (match rest with
     | c :: _ => [(a, b, c)]
     | [] => []) ++ collectTriples rest
  | _ => []

/-- The relationship-extraction loop body: both outer elements must be
dicts, the middle one a string, and both element ids truthy; otherwise the
segment is skipped with a warning. -/
def relOfTriple : PElem × PElem × PElem → Option Relationship
  | (PElem.dict a, PElem.str t, PElem.dict b) =>
    (match truthyEid a, truthyEid b with
     | some sa, some sb => some ⟨none, sa, sb, t, []⟩
     | _, _ => none)
  | _ => none

/-- `rels_list` after the relationship-extraction loop. -/
def buildRels (pd : List PElem) : List Relationship :=
  (collectTriples pd).filterMap relOfTriple

/-- `PathResponse.from_neo4j_path`: empty/falsy input yields the empty
path; otherwise nodes are the registered map's values in insertion order
and relationships the extracted segment list. -/
def PathResponse.from_neo4j_path (path_data : List PElem) : PathResponse :=
  if path_data.isEmpty then ⟨[], []⟩
  else ⟨(buildNodesMap (collectNodePairs path_data)).map Prod.snd, buildRels path_data⟩

/-- The claim's shape of a well-formed flat path list: node dicts at even
indices alternating with type strings, ending on a node. -/
def alternatingShape : List PElem → Bool
  | [PElem.dict _] => true
  | PElem.dict _ :: PElem.str _ :: rest => alternatingShape rest
  | _ => false

/-- A node dict usable for full reconstruction: truthy `elementId` and
successful `Concept.model_validate`. -/
def nodeOk (d : PropMap) : Bool :=
  (truthyEid d).isSome && (ConceptModel.modelValidate d).isSome

/-- Well-formed input in the sense of claim C6: alternating shape and every
node dict validates and carries an identity. -/
def wellShaped : List PElem → Bool
  | [PElem.dict d] => nodeOk d
  | PElem.dict d :: PElem.str _ :: rest => nodeOk d && wellShaped rest
  | _ => false

/-- The element id of a node dict, defaulting to the empty string
(spec-side helper; under `wellShaped` the default is never used). -/
def eidOrEmpty (d : PropMap) : String :=
  (truthyEid d).getD ""

/-- Modelled from the spec: "walk the sequence in stride-2 steps; for each
`(node, edgeType, node)` triple emit one edge record referencing both
endpoint identities and the type". -/
def specEdges : List PElem → List (String × String × String)
  | PElem.dict a :: PElem.str t :: rest =>
    (match rest with
     | PElem.dict b :: _ => [(eidOrEmpty a, t, eidOrEmpty b)]
     | _ => []) ++ specEdges rest
  | _ => []

/-- Modelled from the spec: the node identities of the sequence in
traversal order (stride-2 walk over the node positions). -/
def specNodeIds : List PElem → List String
  | [] => []
  | [x] => (match x with | PElem.dict d => [eidOrEmpty d] | _ => [])
  | x :: _ :: rest => (match x with | PElem.dict d => [eidOrEmpty d] | _ => []) ++ specNodeIds rest

/-- Modelled from the spec: idempotent insert into an identity-keyed
registry — keep the first occurrence of each identity, in order. -/
def dedupFirstAux (acc : List String) : List String → List String
  | [] => acc
  | x :: xs => if acc.contains x then dedupFirstAux acc xs else dedupFirstAux (acc ++ [x]) xs

/-- First-occurrence deduplication of a list of identities. -/
def dedupFirst (l : List String) : List String :=
  dedupFirstAux [] l

/-!
Embedding of the store-facing endpoint logic of
`src/api/v1/endpoints/concepts.py` and
`src/api/v1/endpoints/relationships.py`.

The Neo4j store is a `GraphStore` (nodes and directed typed edges, keyed
by `elementId`).  Each endpoint runs on the session yielded by `get_db`
(`src/db/neo4j_driver.py`), which executes every statement in its own
auto-commit transaction: a write is committed to the store as soon as its
result is consumed, before any code that runs after the query.  The clock
reading `datetime.now(UTC).isoformat()` is passed in as an explicit `now`
string.  HTTP outcomes are the `ApiResult` constructors; uncaught
database-transport failures (500s) have no counterpart in the store model.
-/

/-- A stored Neo4j node (concept): identity plus property map. -/
structure NodeRec where
  elementId : String
  properties : PropMap
deriving DecidableEq, Repr

/-- A stored Neo4j relationship: identity, endpoints, type, properties. -/
structure RelEdge where
  elementId : String
  source_id : String
  target_id : String
  type : String
  properties : PropMap
deriving DecidableEq, Repr

/-- The graph store. -/
structure GraphStore where
  nodes : List NodeRec
  rels : List RelEdge
deriving DecidableEq, Repr

/-- The projection returned by the relationship queries
(`elementId(r), source/target ids and names, type(r), properties(r)`),
validated into `RelationshipResponse`. -/
structure RelRecord where
  elementId : String
  source_id : String
  source_name : PValue
  target_id : String
  target_name : PValue
  type : String
  properties : PropMap
deriving DecidableEq, Repr

/-- HTTP outcome of an endpoint call (transport-level 500s not modelled). -/
inductive ApiResult where
  | noContent
  | badRequest
  | notFound
  | unprocessable (err : KErr)
  | okRel (rec : RelRecord)
  | okNode (rec : NodeRec)
deriving DecidableEq, Repr

/-- `MATCH (c) WHERE elementId(c) = $id` on nodes: first (unique) match. -/
def findNode (s : GraphStore) (eid : String) : Option NodeRec :=
  s.nodes.find? (fun n => n.elementId == eid)

/-- `WHERE elementId(r) = $id` on relationships: first (unique) match. -/
def findRel (s : GraphStore) (eid : String) : Option RelEdge :=
  s.rels.find? (fun r => r.elementId == eid)

/-- `source.name` / `target.name` in a `RETURN` clause (null if absent). -/
def nodeName (s : GraphStore) (eid : String) : PValue :=
  match findNode s eid with
  | some n => pyGet n.properties "name"
  | none => PValue.null

/-- The record projected for one orientation of a matched relationship:
`flipped = false` binds `source` to the edge's start node, `flipped = true`
to its end node. -/
def relRecordOf (s : GraphStore) (r : RelEdge) (flipped : Bool) : RelRecord :=
  if flipped then
    ⟨r.elementId, r.target_id, nodeName s r.target_id, r.source_id, nodeName s r.source_id,
     r.type, r.properties⟩
  else
    ⟨r.elementId, r.source_id, nodeName s r.source_id, r.target_id, nodeName s r.target_id,
     r.type, r.properties⟩

/-- The result rows of `MATCH (source)-[r]-(target) WHERE elementId(r) =
$element_id`: the pattern is undirected, so every matching stored edge is
bound in both orientations and contributes two rows. -/
def matchRelUndirected (s : GraphStore) (eid : String) : List RelRecord :=
  (s.rels.filter (fun r => r.elementId == eid)).foldr
    (fun r acc => relRecordOf s r false :: relRecordOf s r true :: acc) []

/-- Neo4j driver `AsyncResult.single()` (non-strict): `None` when the
result has no record; otherwise the first record is returned (the driver
only emits a warning when further records exist — it does not raise). -/
def resultSingle (rows : List RelRecord) : Option RelRecord :=
  rows.head?

/-- `get_relationship_by_id` (`relationships.py`): one undirected
by-identity match, `single()`, 404 when no record. -/
def get_relationship_by_id (s : GraphStore) (element_id : String) : ApiResult :=
  match resultSingle (matchRelUndirected s element_id) with
  | none => ApiResult.notFound
  | some rec => ApiResult.okRel rec

/-- Replace the stored relationship with the given identity. -/
def replaceRel (s : GraphStore) (eid : String) (r' : RelEdge) : GraphStore :=
  ⟨s.nodes, s.rels.map (fun r => if r.elementId == eid then r' else r)⟩

/-- `update_relationship` (`relationships.py`, PATCH).  `props?` is
`update_data.properties`; `none` models an absent `properties` object and
`some payload` the `model_dump(exclude_unset=True)` of a provided one.
Order of operations, as in the source: empty-payload check (400) before
anything else; stamp `updated_at`; run the combined MATCH+SET+RETURN query
(committed on consume); 404 when no record matched; only then run Kantian
validation on the already-committed merged property map, answering 422
while the store keeps the updated edge. -/
def update_relationship (s : GraphStore) (element_id : String)
    (props? : Option PropMap) (now : String) : GraphStore × ApiResult :=
  let update_payload := match props? with | none => [] | some p => p
  if update_payload.isEmpty then (s, ApiResult.badRequest)
  else
    let update_payload := setKey update_payload "updated_at" (PValue.s now)
    match findRel s element_id with
    | none => (s, ApiResult.notFound)
    | some r =>
      let merged := cypherMerge r.properties update_payload
      let r' : RelEdge := ⟨r.elementId, r.source_id, r.target_id, r.type, merged⟩
      let s' := replaceRel s element_id r'
      match validate_relationship r.type merged with
      | Except.ok _ => (s', ApiResult.okRel (relRecordOf s' r' false))
      | Except.error e => (s', ApiResult.unprocessable e)

/-- `delete_relationship` (`relationships.py`): undirected by-identity
detach-delete; the endpoint returns 204 whatever the deleted count. -/
def delete_relationship (s : GraphStore) (element_id : String) : GraphStore × ApiResult :=
  (⟨s.nodes, s.rels.filter (fun r => !(r.elementId == element_id))⟩, ApiResult.noContent)

/-- `delete_concept` (`concepts.py`) via `DELETE_CONCEPT`:
`DETACH DELETE` removes the node and every incident relationship; the
endpoint returns 204 whether or not anything was deleted. -/
def delete_concept (s : GraphStore) (element_id : String) : GraphStore × ApiResult :=
  (⟨s.nodes.filter (fun n => !(n.elementId == element_id)),
    s.rels.filter (fun r => !(r.source_id == element_id) && !(r.target_id == element_id))⟩,
   ApiResult.noContent)

/-- The field names of `RelationshipProperties`
(`src/models/relationship.py`), in declaration order. -/
def REL_PROP_FIELDS : List String :=
  ["confidence_score", "created_at", "updated_at", "source_information",
   "distance", "spatial_unit", "relation_type", "spatial_dimension",
   "temporal_distance", "temporal_unit"]

/-- `rel_in.properties.model_dump(exclude_unset=False)`: every declared
field, taking the explicitly-set value when present and otherwise the
field default (`confidence_score = 0.5`, all other fields `None`). -/
def relPropsFullDump (propsSet : PropMap) : PropMap :=
  REL_PROP_FIELDS.map (fun k =>
    (k, if hasKey propsSet k then pyGet propsSet k
        else if k == "confidence_score" then PValue.num (1/2) else PValue.null))

/-- `handle_create_relationship` (`relationships.py`, POST).  `propsSet`
is the `exclude_unset=True` dump of the request properties (used for
validation), `newEid` the store-assigned identity of the created edge,
`now` the single `datetime.now` reading.  Source order: Kantian
validation; assemble the full property dump; stamp `created_at`; copy it
into `updated_at`; drop `None` values; create the edge when both endpoint
nodes resolve, else 404. -/
def handle_create_relationship (s : GraphStore) (rel_type source_id target_id : String)
    (propsSet : PropMap) (newEid now : String) : GraphStore × ApiResult :=
  match validate_relationship rel_type propsSet with
  | Except.error e => (s, ApiResult.unprocessable e)
  | Except.ok _ =>
    let properties := relPropsFullDump propsSet
    let properties := setKey properties "created_at" (PValue.s now)
    let properties := setKey properties "updated_at" (pyGet properties "created_at")
    let final_properties := properties.filter (fun kv => !(kv.2 == PValue.null))
    if (findNode s source_id).isSome && (findNode s target_id).isSome then
      let e : RelEdge := ⟨newEid, source_id, target_id, rel_type, final_properties⟩
      (⟨s.nodes, s.rels ++ [e]⟩, ApiResult.okRel (relRecordOf s e false))
    else (s, ApiResult.notFound)

/-- The `confidence` → `confidence_score` rename applied to a concept
update payload before the Cypher call (`update_data.pop('confidence')`
then re-insertion under the database key). -/
def renameConfidence (delta : PropMap) : PropMap :=
  if hasKey delta "confidence" then
    eraseKey delta "confidence" ++ [("confidence_score", pyGet delta "confidence")]
  else delta

/-- `update_concept_partial` (`concepts.py`, PATCH; named
`update_concept_patch` here because of a lexical restriction on the
suffix of the source name).  `delta` is
`concept_update.model_dump(exclude_unset=True)`.  Source order:
empty-delta check (400) before validation and before any store access;
delta-only Kantian validation (422); `confidence` rename; the
`UPDATE_CONCEPT_PARTIAL` query — `SET c += $update_data,
c.updated_at = datetime()` on the by-identity match, 404 when absent. -/
def update_concept_patch (s : GraphStore) (element_id : String)
    (delta : PropMap) (now : String) : GraphStore × ApiResult :=
  if delta.isEmpty then (s, ApiResult.badRequest)
  else
    match validate_concept delta with
    | Except.error e => (s, ApiResult.unprocessable e)
    | Except.ok _ =>
      let update_data := renameConfidence delta
      match findNode s element_id with
      | none => (s, ApiResult.notFound)
      | some n =>
        let props' := setKey (cypherMerge n.properties update_data) "updated_at" (PValue.s now)
        let n' : NodeRec := ⟨n.elementId, props'⟩
        (⟨s.nodes.map (fun m => if m.elementId == element_id then n' else m), s.rels⟩,
         ApiResult.okNode n')

/-!
Concrete stores and path inputs used by witnesses and counterexamples.
-/

/-- Two concept nodes, identities `A` and `B`. -/
def demoNodes : List NodeRec :=
  [⟨"A", [("name", PValue.s "Heat")]⟩, ⟨"B", [("name", PValue.s "Expansion")]⟩]

/-- A store holding one `CAUSES` edge `A → B` with identity `r1`. -/
def causesStore : GraphStore := ⟨demoNodes, [⟨"r1", "A", "B", "CAUSES", []⟩]⟩

/-- A store holding one valid `SPATIALLY_RELATES_TO` edge `A → B`
(no spatial properties yet). -/
def spatialStore : GraphStore :=
  ⟨demoNodes,
   [⟨"r1", "A", "B", "SPATIALLY_RELATES_TO",
     [("created_at", PValue.s "T0"), ("updated_at", PValue.s "T0")]⟩]⟩

/-- The empty store. -/
def emptyStore : GraphStore := ⟨[], []⟩

/-- A path node dict with identity `A`. -/
def nodeDictA : PropMap :=
  [("elementId", PValue.s "A"), ("id", PValue.s "cA"), ("name", PValue.s "A")]

/-- A path node dict with identity `B`. -/
def nodeDictB : PropMap :=
  [("elementId", PValue.s "B"), ("id", PValue.s "cB"), ("name", PValue.s "B")]

/-- A path node dict with identity `C`. -/
def nodeDictC : PropMap :=
  [("elementId", PValue.s "C"), ("id", PValue.s "cC"), ("name", PValue.s "C")]

/-- The concept validated from `nodeDictA`. -/
def conceptA : ConceptModel := ⟨"cA", some "A", "A", none, none, none, none, none, none⟩

/-- The concept validated from `nodeDictB`. -/
def conceptB : ConceptModel := ⟨"cB", some "B", "B", none, none, none, none, none, none⟩

/-- The concept validated from `nodeDictC`. -/
def conceptC : ConceptModel := ⟨"cC", some "C", "C", none, none, none, none, none, none⟩

/-- The well-formed flat path list `[A, "CAUSES", B, "CAUSES", C]`. -/
def goodPath : List PElem :=
  [PElem.dict nodeDictA, PElem.str "CAUSES", PElem.dict nodeDictB,
   PElem.str "CAUSES", PElem.dict nodeDictC]

/-- A malformed (non-alternating) flat path list: the element at index 3
is a node dict where a relationship-type string is required. -/
def badPath : List PElem :=
  [PElem.dict nodeDictA, PElem.str "CAUSES", PElem.dict nodeDictB,
   PElem.dict nodeDictB, PElem.dict nodeDictC]

/-- The record returned by the create in the C10 witness. -/
def c10rec : RelRecord :=
  ⟨"r2", "A", PValue.s "Heat", "B", PValue.s "Expansion", "CAUSES",
   [("confidence_score", PValue.num (1/2)), ("created_at", PValue.s "T5"),
    ("updated_at", PValue.s "T5")]⟩

/-!  Helper lemmas (shared; not claim theorems). -/

theorem listFilterIdem {α : Type} (p : α → Bool) (l : List α) :
    (l.filter p).filter p = l.filter p := by
  induction l with
  | nil => rfl
  | cons a l ih => cases h : p a <;> simp [List.filter_cons, h, ih]

theorem strBeqComm (a b : String) : (a == b) = (b == a) := by
  by_cases h : a = b
  · subst h; rfl
  · rw [beq_eq_false_iff_ne.mpr h, beq_eq_false_iff_ne.mpr (Ne.symm h)]

theorem headFoldrPairFilter {α β : Type} (p : α → Bool) (f g : α → β) (l : List α) :
    ((l.filter p).foldr (fun r acc => f r :: g r :: acc) []).head? = (l.find? p).map f := by
  induction l with
  | nil => rfl
  | cons a l ih => cases h : p a <;> simp [List.filter_cons, List.find?_cons, h, ih]

/-!  Theorems for the claims. -/

/-- C4: spatial relationship validation, exact characterization:
the two `spatial_unit` rejections, then the `relation_type` rejection,
otherwise success (checks apply in source order, first violation wins). -/
theorem c4_validate_spatial_relationship (p : PropMap) :
    (rejectsWithField (validate_relationship "SPATIALLY_RELATES_TO" p) "spatial_unit"
       = (distanceWithoutUnit p || badSpatialUnit p))
    ∧ (rejectsWithField (validate_relationship "SPATIALLY_RELATES_TO" p) "relation_type"
       = (!(distanceWithoutUnit p || badSpatialUnit p) && badSpatialRelationType p))
    ∧ (validationOk (validate_relationship "SPATIALLY_RELATES_TO" p)
       = (!distanceWithoutUnit p && !badSpatialUnit p && !badSpatialRelationType p)) := by
  unfold validate_relationship distanceWithoutUnit badSpatialUnit badSpatialRelationType
  cases h1 : hasKey p "distance" <;>
    cases h2 : hasKey p "spatial_unit" <;>
      cases h3 : hasKey p "relation_type" <;>
        cases h4 : pvalueInStrSet (pyGet p "spatial_unit") ALLOWED_SPATIAL_UNITS <;>
          cases h5 : pvalueInStrSet (pyGet p "relation_type") ALLOWED_SPATIAL_RELATION_TYPES <;>
            simp [rejectsWithField, validationOk, Except.bind, bind]

/-- C5: concept validation rejects with field `quality` exactly when a
non-null `quality` value lies outside the allowed quality set. -/
theorem c5_validate_concept_quality (a : PropMap) :
    rejectsWithField (validate_concept a) "quality" = qualityViolation a := by
  unfold validate_concept validate_quality validate_modality qualityViolation
  cases h1 : (pyGet a "quality" == PValue.null) <;>
    cases h2 : pvalueInStrSet (pyGet a "quality") ALLOWED_QUALITIES <;>
      cases h3 : (pyGet a "modality" == PValue.null) <;>
        cases h4 : pvalueInStrSet (pyGet a "modality") ALLOWED_MODALITIES <;>
          simp [rejectsWithField, Except.bind, bind, h1, h2, h3, h4]

/-- C9: a concept or relationship update whose delta has no set fields is
rejected with 400 before validation and before any store access, for every
store (in particular for a store in which the target id does not exist:
the empty-delta rejection takes precedence over NotFound). -/
theorem c9_empty_delta_bad_request (s : GraphStore) (eid now : String) :
    update_concept_patch s eid [] now = (s, ApiResult.badRequest)
    ∧ update_relationship s eid none now = (s, ApiResult.badRequest)
    ∧ update_relationship s eid (some []) now = (s, ApiResult.badRequest) :=
  ⟨rfl, rfl, rfl⟩

/-- C7: deleting a concept or a relationship is idempotent: every delete —
including one whose id resolves to nothing, such as a repeated delete —
reports the same 204 success outcome, and the second delete leaves the
store exactly as the first left it. -/
theorem c7_delete_idempotent (s : GraphStore) (eid : String) :
    (delete_concept s eid).2 = ApiResult.noContent
    ∧ (delete_concept (delete_concept s eid).1 eid).2 = ApiResult.noContent
    ∧ (delete_concept (delete_concept s eid).1 eid).1 = (delete_concept s eid).1
    ∧ (delete_relationship s eid).2 = ApiResult.noContent
    ∧ (delete_relationship (delete_relationship s eid).1 eid).2 = ApiResult.noContent
    ∧ (delete_relationship (delete_relationship s eid).1 eid).1 = (delete_relationship s eid).1 := by
  refine ⟨rfl, rfl, ?_, rfl, rfl, ?_⟩ <;> simp [delete_concept, delete_relationship, listFilterIdem]

/-- C1: the relationship update commits the merged property set to the
store and only then validates it.  On the concrete failing input — a PATCH
with delta `{distance: 10}` against a stored `SPATIALLY_RELATES_TO` edge
without `spatial_unit` — the endpoint answers 422 (field `spatial_unit`),
yet the store now holds the invalid merged edge (with `distance` and no
`spatial_unit`) instead of being left unchanged. -/
theorem c1_update_commits_before_validation :
    (update_relationship spatialStore "r1" (some [("distance", PValue.num 10)]) "T1").2
      = ApiResult.unprocessable ⟨some "spatial_unit"⟩
    ∧ (update_relationship spatialStore "r1" (some [("distance", PValue.num 10)]) "T1").1
      ≠ spatialStore
    ∧ (findRel (update_relationship spatialStore "r1" (some [("distance", PValue.num 10)]) "T1").1 "r1").map
        (fun r => hasKey r.properties "distance" && !hasKey r.properties "spatial_unit")
      = some true := by
  refine ⟨rfl, by decide, rfl⟩

/-- C3 counterexample: the by-identity relationship lookup matches the one
stored edge of `causesStore` twice (the undirected pattern binds both
orientations), and the operation returns the first of the two matched
records — no error of any kind is reported. -/
theorem c3_counterexample_first_match_returned :
    (matchRelUndirected causesStore "r1").length = 2
    ∧ resultSingle (matchRelUndirected causesStore "r1")
        = some (relRecordOf causesStore ⟨"r1", "A", "B", "CAUSES", []⟩ false)
    ∧ get_relationship_by_id causesStore "r1"
        = ApiResult.okRel (relRecordOf causesStore ⟨"r1", "A", "B", "CAUSES", []⟩ false) :=
  ⟨rfl, rfl, rfl⟩

/-- C3 amended: `get(id)` never reports a multiple-match inconsistency;
for every store it returns the (first) matching edge's forward-orientation
record, or 404 when the id resolves to no edge. -/
theorem c3_amended_get_returns_first_match (s : GraphStore) (eid : String) :
    get_relationship_by_id s eid =
      (match findRel s eid with
       | some r => ApiResult.okRel (relRecordOf s r false)
       | none => ApiResult.notFound) := by
  unfold get_relationship_by_id resultSingle matchRelUndirected findRel
  rw [headFoldrPairFilter]
  cases h : s.rels.find? (fun r => r.elementId == eid) <;> simp [h]

/-- C8: a concept update whose delta is nonempty and passes validation,
aimed at an id that resolves to no concept, answers 404 and leaves the
store unchanged. -/
theorem c8_update_nonexistent_not_found (s : GraphStore) (eid : String)
    (delta : PropMap) (now : String) (hne : delta ≠ [])
    (hval : validate_concept delta = Except.ok ())
    (habs : findNode s eid = none) :
    update_concept_patch s eid delta now = (s, ApiResult.notFound) := by
  have h1 : delta.isEmpty = false := by
    cases delta with
    | nil => exact absurd rfl hne
    | cons a l => rfl
  unfold update_concept_patch
  simp [h1, hval, habs]

/-- C8 witness: updating the nonexistent id `missing` with the valid delta
`{quality: "Reality"}` yields NotFound on the unchanged empty store. -/
theorem c8_witness :
    update_concept_patch emptyStore "missing" [("quality", PValue.s "Reality")] "T1"
      = (emptyStore, ApiResult.notFound) :=
  c8_update_nonexistent_not_found emptyStore "missing"
    [("quality", PValue.s "Reality")] "T1" (by decide) rfl rfl

/-- C2 counterexample: `badPath` is malformed (index 3 holds a node dict
where an edge-type string is required, so the sequence does not
alternate), yet reconstruction does not fail closed: it emits a partial
path containing the three nodes and the one well-formed segment. -/
theorem c2_counterexample_partial_path_emitted :
    alternatingShape badPath = false
    ∧ (PathResponse.from_neo4j_path badPath).relationships ≠ []
    ∧ PathResponse.from_neo4j_path badPath
        = ⟨[conceptA, conceptB, conceptC], [⟨none, "A", "B", "CAUSES", []⟩]⟩ := by
  refine ⟨rfl, by decide, rfl⟩

theorem find?_setKey (m : PropMap) (k : String) (v : PValue) :
    (setKey m k v).find? (fun kv => kv.1 == k) = some (k, v) := by
  induction m with
  | nil => simp [setKey, List.find?]
  | cons kv rest ih =>
    unfold setKey
    cases h : (kv.1 == k) <;> simp [List.find?_cons, h, ih]

theorem find?_setKey_ne (m : PropMap) (k k' : String) (v : PValue)
    (h : (k' == k) = false) :
    (setKey m k' v).find? (fun kv => kv.1 == k) = m.find? (fun kv => kv.1 == k) := by
  induction m with
  | nil => simp [setKey, List.find?, h]
  | cons kv rest ih =>
    unfold setKey
    cases hk : (kv.1 == k') with
    | true =>
      have hkk : (kv.1 == k) = false := by
        rw [beq_iff_eq] at hk; rw [hk]; exact h
      simp [List.find?_cons, h, hkk]
    | false =>
      cases hkv : (kv.1 == k) <;> simp [List.find?_cons, hkv, ih]

theorem find?_filterNonNull (l : PropMap) (k : String) (v : PValue)
    (h : l.find? (fun kv => kv.1 == k) = some (k, v))
    (hv : (v == PValue.null) = false) :
    (l.filter (fun kv => !(kv.2 == PValue.null))).find? (fun kv => kv.1 == k)
      = some (k, v) := by
  induction l with
  | nil => simp [List.find?] at h
  | cons a l ih =>
    cases ha : (a.1 == k) with
    | true =>
      rw [List.find?_cons_of_pos (p := fun (kv : String × PValue) => kv.1 == k) _ ha] at h
      injection h with h2
      subst h2
      rw [List.filter_cons_of_pos (by simpa using hv)]
      exact List.find?_cons_of_pos (p := fun (kv : String × PValue) => kv.1 == k) _ (by simp)
    | false =>
      rw [List.find?_cons_of_neg (p := fun (kv : String × PValue) => kv.1 == k) _ (by simp [ha])] at h
      have hrest := ih h
      cases hnn : (a.2 == PValue.null) with
      | true =>
        rw [List.filter_cons_of_neg (by simp [hnn])]
        exact hrest
      | false =>
        rw [List.filter_cons_of_pos (by simp [hnn])]
        rw [List.find?_cons_of_neg (p := fun (kv : String × PValue) => kv.1 == k) _ (by simp [ha])]
        exact hrest

/-- C10: every successful relationship create persists and returns an edge
whose `updated_at` equals its `created_at`, both being the single clock
reading taken at creation time. -/
theorem c10_create_stamps_updated_eq_created (s : GraphStore)
    (rel_type source_id target_id : String) (propsSet : PropMap)
    (newEid now : String) (rec : RelRecord)
    (h : (handle_create_relationship s rel_type source_id target_id propsSet newEid now).2
           = ApiResult.okRel rec) :
    pyGet rec.properties "created_at" = PValue.s now
    ∧ pyGet rec.properties "updated_at" = pyGet rec.properties "created_at" := by
  unfold handle_create_relationship at h
  cases hval : validate_relationship rel_type propsSet with
  | error e => rw [hval] at h; simp at h
  | ok u =>
    rw [hval] at h
    simp only [] at h
    cases hn : ((findNode s source_id).isSome && (findNode s target_id).isSome) with
    | false => rw [hn] at h; simp at h
    | true =>
      rw [hn] at h
      simp only [if_true] at h
      have hrec : rec.properties =
          (setKey (setKey (relPropsFullDump propsSet) "created_at" (PValue.s now))
            "updated_at"
            (pyGet (setKey (relPropsFullDump propsSet) "created_at" (PValue.s now)) "created_at")).filter
            (fun kv => !(kv.2 == PValue.null)) := by
        have : ApiResult.okRel _ = ApiResult.okRel rec := h
        cases h
        rfl
      have hget1 : pyGet (setKey (relPropsFullDump propsSet) "created_at" (PValue.s now)) "created_at"
          = PValue.s now := by
        unfold pyGet
        rw [find?_setKey]
      rw [hget1] at hrec
      have hfind2 : (setKey (setKey (relPropsFullDump propsSet) "created_at" (PValue.s now))
            "updated_at" (PValue.s now)).find? (fun kv => kv.1 == "created_at")
          = some ("created_at", PValue.s now) := by
        rw [find?_setKey_ne _ _ _ _ (by decide)]
        exact find?_setKey _ _ _
      have hfind3 : (setKey (setKey (relPropsFullDump propsSet) "created_at" (PValue.s now))
            "updated_at" (PValue.s now)).find? (fun kv => kv.1 == "updated_at")
          = some ("updated_at", PValue.s now) := find?_setKey _ _ _
      constructor
      · rw [hrec]
        unfold pyGet
        rw [find?_filterNonNull _ _ _ hfind2 rfl]
      · rw [hrec]
        unfold pyGet
        rw [find?_filterNonNull _ _ _ hfind2 rfl,
            find?_filterNonNull _ _ _ hfind3 rfl]

/-- C10 witness: creating a `CAUSES` edge `A → B` in `causesStore` at
clock reading `T5` returns a record whose `created_at` and `updated_at`
both equal `T5`. -/
theorem c10_witness :
    pyGet c10rec.properties "created_at" = PValue.s "T5"
    ∧ pyGet c10rec.properties "updated_at" = pyGet c10rec.properties "created_at" :=
  c10_create_stamps_updated_eq_created causesStore "CAUSES" "A" "B" [] "r2" "T5" c10rec rfl

theorem wellShaped_ne_nil (pd : List PElem) (h : wellShaped pd = true) : pd ≠ [] := by
  intro hc; subst hc; simp [wellShaped] at h

theorem wellShaped_head (pd : List PElem) (h : wellShaped pd = true) :
    ∃ b rest, pd = PElem.dict b :: rest ∧ nodeOk b = true := by
  induction pd using wellShaped.induct with
  | case1 d => exact ⟨d, [], rfl, by simpa [wellShaped] using h⟩
  | case2 d t rest ih =>
    simp [wellShaped] at h
    exact ⟨d, _, rfl, h.1⟩
  | case3 l h1 h2 => simp [wellShaped] at h

theorem collectNodePairs_append_dict (pd : List PElem) (h : wellShaped pd = true) (d : PropMap) :
    collectNodePairs (pd ++ [PElem.dict d]) = collectNodePairs pd := by
  induction pd using wellShaped.induct with
  | case1 d0 => rfl
  | case2 d0 t rest ih =>
    simp [wellShaped] at h
    simp [collectNodePairs, ih h.2]
  | case3 l h1 h2 => simp [wellShaped] at h

theorem collectTriples_append_dict (pd : List PElem) (h : wellShaped pd = true) (d : PropMap) :
    collectTriples (pd ++ [PElem.dict d]) = collectTriples pd := by
  induction pd using wellShaped.induct with
  | case1 d0 => rfl
  | case2 d0 t rest ih =>
    simp [wellShaped] at h
    obtain ⟨b, rest', rfl, hb⟩ := wellShaped_head rest h.2
    have hih := ih h.2
    simp only [List.cons_append, List.append_eq] at hih ⊢
    simp only [collectTriples, List.append_eq, List.cons_append]
    rw [hih]
  | case3 l h1 h2 => simp [wellShaped] at h

theorem alternatingShape_append_dict (pd : List PElem) (h : wellShaped pd = true) (d : PropMap) :
    alternatingShape (pd ++ [PElem.dict d]) = false := by
  induction pd using wellShaped.induct with
  | case1 d0 => rfl
  | case2 d0 t rest ih =>
    simp [wellShaped] at h
    simpa [alternatingShape] using ih h.2
  | case3 l h1 h2 => simp [wellShaped] at h

/-- C2 amended: a malformed sequence is not rejected wholesale — the
reconstruction skips malformed segments and emits the partial path of the
well-formed ones.  In particular, appending a spurious trailing node dict
to any well-formed sequence (making it non-alternating) yields exactly the
path of the well-formed prefix, not the empty path. -/
theorem c2_amended_partial_path_of_prefix (pd : List PElem) (d : PropMap)
    (h : wellShaped pd = true) :
    alternatingShape (pd ++ [PElem.dict d]) = false
    ∧ PathResponse.from_neo4j_path (pd ++ [PElem.dict d])
        = PathResponse.from_neo4j_path pd := by
  refine ⟨alternatingShape_append_dict pd h d, ?_⟩
  have hne : pd ≠ [] := wellShaped_ne_nil pd h
  have h1 : (pd ++ [PElem.dict d]).isEmpty = false := by
    cases pd with
    | nil => exact absurd rfl hne
    | cons a l => rfl
  have h2 : pd.isEmpty = false := by
    cases pd with
    | nil => exact absurd rfl hne
    | cons a l => rfl
  unfold PathResponse.from_neo4j_path buildRels
  rw [h1, h2]
  simp [collectNodePairs_append_dict pd h d, collectTriples_append_dict pd h d]

/-- C2 amended witness: the well-formed `goodPath` with a spurious
trailing node dict appended is malformed, yet reconstructs to exactly the
(nonempty) path of `goodPath` itself. -/
theorem c2_amended_witness :
    alternatingShape (goodPath ++ [PElem.dict nodeDictB]) = false
    ∧ PathResponse.from_neo4j_path (goodPath ++ [PElem.dict nodeDictB])
        = PathResponse.from_neo4j_path goodPath :=
  c2_amended_partial_path_of_prefix goodPath nodeDictB rfl

theorem nodeOk_eid (d : PropMap) (h : nodeOk d = true) :
    truthyEid d = some (eidOrEmpty d) := by
  unfold nodeOk at h
  rw [Bool.and_eq_true] at h
  obtain ⟨e, he⟩ := Option.isSome_iff_exists.mp h.1
  unfold eidOrEmpty
  rw [he]
  rfl

theorem nodeOk_validate (d : PropMap) (h : nodeOk d = true) :
    ∃ c, ConceptModel.modelValidate d = some c := by
  unfold nodeOk at h
  rw [Bool.and_eq_true] at h
  exact Option.isSome_iff_exists.mp h.2

theorem modelValidate_elementId (d : PropMap) (eid : String) (c : ConceptModel)
    (ht : truthyEid d = some eid) (hv : ConceptModel.modelValidate d = some c) :
    c.elementId = some eid := by
  have hp : pyGet d "elementId" = PValue.s eid := by
    unfold truthyEid at ht
    cases hp : pyGet d "elementId" <;> rw [hp] at ht <;> simp at ht
    rw [ht.2]
  unfold ConceptModel.modelValidate at hv
  rw [hp] at hv
  simp only [optStrField] at hv
  split at hv
  · injection hv with hc
    subst hc
    rename_i heq1 heq2 heq3 heq4 heq5 heq6 heq7
    injection heq1 with h1
    exact h1.symm
  · exact absurd hv (by simp)

theorem collectNodePairs_all_nodeOk (pd : List PElem) (h : wellShaped pd = true) :
    ∀ d ∈ collectNodePairs pd, nodeOk d = true := by
  induction pd using wellShaped.induct with
  | case1 d0 =>
    intro d hd
    simp [collectNodePairs] at hd
    subst hd
    simpa [wellShaped] using h
  | case2 d0 t rest ih =>
    simp [wellShaped] at h
    intro d hd
    simp [collectNodePairs] at hd
    rcases hd with hd | hd
    · subst hd; exact h.1
    · exact ih h.2 d hd
  | case3 l h1 h2 => simp [wellShaped] at h

theorem collectNodePairs_ids (pd : List PElem) (h : wellShaped pd = true) :
    (collectNodePairs pd).map eidOrEmpty = specNodeIds pd := by
  induction pd using wellShaped.induct with
  | case1 d0 => rfl
  | case2 d0 t rest ih =>
    simp [wellShaped] at h
    have hr := ih h.2
    have hne := wellShaped_ne_nil rest h.2
    cases rest with
    | nil => exact absurd rfl hne
    | cons x rest' => simpa [collectNodePairs, specNodeIds] using hr
  | case3 l h1 h2 => simp [wellShaped] at h

theorem findKeyIsSome_contains (m : List (String × ConceptModel)) (eid : String) :
    (m.find? (fun kv => kv.1 == eid)).isSome = (m.map Prod.fst).contains eid := by
  induction m with
  | nil => rfl
  | cons kv m ih =>
    cases h : (kv.1 == eid) <;>
      simp [List.find?_cons, List.contains_cons, h, ih, strBeqComm eid kv.1]

theorem foldRegister_keys (ds : List PropMap) :
    ∀ m : List (String × ConceptModel), (∀ d ∈ ds, nodeOk d = true) →
      (ds.foldl registerNode m).map Prod.fst
        = dedupFirstAux (m.map Prod.fst) (ds.map eidOrEmpty) := by
  induction ds with
  | nil => intro m _; rfl
  | cons d ds ih =>
    intro m hok
    have hd : nodeOk d = true := hok d (List.mem_cons_self d ds)
    have heid := nodeOk_eid d hd
    obtain ⟨c, hc⟩ := nodeOk_validate d hd
    have htail : ∀ d' ∈ ds, nodeOk d' = true :=
      fun d' hd' => hok d' (List.mem_cons_of_mem d hd')
    simp only [List.foldl_cons, List.map_cons]
    rw [show dedupFirstAux (m.map Prod.fst) (eidOrEmpty d :: ds.map eidOrEmpty)
          = (if (m.map Prod.fst).contains (eidOrEmpty d) then
               dedupFirstAux (m.map Prod.fst) (ds.map eidOrEmpty)
             else dedupFirstAux (m.map Prod.fst ++ [eidOrEmpty d]) (ds.map eidOrEmpty))
        from rfl]
    cases hmem : (m.find? (fun kv => kv.1 == eidOrEmpty d)).isSome with
    | true =>
      rw [← findKeyIsSome_contains, hmem]
      have hstep : registerNode m d = m := by
        simp [registerNode, heid, hmem]
      rw [hstep, if_pos rfl]
      exact ih m htail
    | false =>
      rw [← findKeyIsSome_contains, hmem]
      have hstep : registerNode m d = m ++ [(eidOrEmpty d, c)] := by
        simp [registerNode, heid, hmem, hc]
      rw [hstep]
      simp only [Bool.false_eq_true, if_false]
      have := ih (m ++ [(eidOrEmpty d, c)]) htail
      simpa using this

theorem foldRegister_mem (ds : List PropMap) :
    ∀ (m : List (String × ConceptModel)) (kv : String × ConceptModel),
      kv ∈ ds.foldl registerNode m →
      kv ∈ m ∨ ∃ d ∈ ds, ConceptModel.modelValidate d = some kv.2 := by
  induction ds with
  | nil => intro m kv h; exact Or.inl h
  | cons d ds ih =>
    intro m kv h
    rcases ih (registerNode m d) kv h with hm | ⟨d', hd', hv'⟩
    · unfold registerNode at hm
      split at hm
      · exact Or.inl hm
      · split at hm
        · exact Or.inl hm
        · split at hm
          · rename_i c' hc'
            rcases List.mem_append.mp hm with hmm | hmm
            · exact Or.inl hmm
            · simp at hmm
              subst hmm
              exact Or.inr ⟨d, List.mem_cons_self d ds, hc'⟩
          · exact Or.inl hm
    · exact Or.inr ⟨d', List.mem_cons_of_mem d hd', hv'⟩

theorem foldRegister_eid_inv (ds : List PropMap) :
    ∀ m : List (String × ConceptModel),
      (∀ kv ∈ m, kv.2.elementId = some kv.1) →
      ∀ kv ∈ ds.foldl registerNode m, kv.2.elementId = some kv.1 := by
  induction ds with
  | nil => intro m hm kv h; exact hm kv h
  | cons d ds ih =>
    intro m hm kv h
    refine ih (registerNode m d) ?_ kv h
    intro kv' hkv'
    unfold registerNode at hkv'
    split at hkv'
    · exact hm kv' hkv'
    · next eid heq =>
      split at hkv'
      · exact hm kv' hkv'
      · split at hkv'
        · next c' hc' =>
          rcases List.mem_append.mp hkv' with hmm | hmm
          · exact hm kv' hmm
          · simp at hmm
            subst hmm
            exact modelValidate_elementId d eid c' heq hc'
        · exact hm kv' hkv'

theorem dedupFirstAux_nodup (l : List String) :
    ∀ acc : List String, acc.Nodup → (dedupFirstAux acc l).Nodup := by
  induction l with
  | nil => intro acc h; exact h
  | cons x xs ih =>
    intro acc hacc
    unfold dedupFirstAux
    cases h : acc.contains x with
    | true => exact ih acc hacc
    | false =>
      refine ih (acc ++ [x]) ?_
      have hx : x ∉ acc := by simpa using h
      simp [List.nodup_append, hacc, hx]

theorem buildRels_spec (pd : List PElem) (h : wellShaped pd = true) :
    (buildRels pd).map (fun r => (r.start_node_id, r.type, r.end_node_id)) = specEdges pd := by
  induction pd using wellShaped.induct with
  | case1 d0 => rfl
  | case2 d0 t rest ih =>
    simp [wellShaped] at h
    obtain ⟨b, rest', rfl, hb⟩ := wellShaped_head rest h.2
    have h0 := nodeOk_eid d0 h.1
    have hbe := nodeOk_eid b hb
    have htail := ih h.2
    simp only [buildRels] at htail ⊢
    simp [collectTriples, specEdges, relOfTriple, h0, hbe, htail]
  | case3 l h1 h2 => simp [wellShaped] at h

/-- C6: on every well-formed alternating sequence, reconstruction yields
(1) one edge per consecutive `(node, edgeType, node)` triple, in traversal
order, referencing both endpoint identities and the type; (2) a node list
whose identities are the distinct input node identities in first-seen
order (identity-keyed idempotent insert); (3) no duplicate node
identities; and (4) every emitted node is the validated concept of one of
the input node dicts. -/
theorem c6_path_reconstruction (pd : List PElem) (h : wellShaped pd = true) :
    ((PathResponse.from_neo4j_path pd).relationships.map
        (fun r => (r.start_node_id, r.type, r.end_node_id)) = specEdges pd)
    ∧ ((PathResponse.from_neo4j_path pd).nodes.map (fun c => c.elementId)
        = (dedupFirst (specNodeIds pd)).map some)
    ∧ ((PathResponse.from_neo4j_path pd).nodes.map (fun c => c.elementId)).Nodup
    ∧ (∀ c ∈ (PathResponse.from_neo4j_path pd).nodes,
        ∃ d ∈ collectNodePairs pd, ConceptModel.modelValidate d = some c) := by
  have hne := wellShaped_ne_nil pd h
  have hie : pd.isEmpty = false := by
    cases pd with
    | nil => exact absurd rfl hne
    | cons a l => rfl
  have hnodes : (PathResponse.from_neo4j_path pd).nodes
      = (buildNodesMap (collectNodePairs pd)).map Prod.snd := by
    simp [PathResponse.from_neo4j_path, hie]
  have hrels : (PathResponse.from_neo4j_path pd).relationships = buildRels pd := by
    simp [PathResponse.from_neo4j_path, hie]
  have hkeys : (buildNodesMap (collectNodePairs pd)).map Prod.fst
      = dedupFirst ((collectNodePairs pd).map eidOrEmpty) := by
    simpa [buildNodesMap, dedupFirst] using
      foldRegister_keys (collectNodePairs pd) [] (collectNodePairs_all_nodeOk pd h)
  have hids := collectNodePairs_ids pd h
  have heidinv := foldRegister_eid_inv (collectNodePairs pd) [] (by intro kv hkv; simp at hkv)
  have hmapeid : ((buildNodesMap (collectNodePairs pd)).map Prod.snd).map (fun c => c.elementId)
      = ((buildNodesMap (collectNodePairs pd)).map Prod.fst).map some := by
    rw [List.map_map, List.map_map]
    apply List.map_congr_left
    intro kv hkv
    simpa using heidinv kv hkv
  refine ⟨?_, ?_, ?_, ?_⟩
  · rw [hrels]; exact buildRels_spec pd h
  · rw [hnodes, hmapeid, hkeys, hids]
  · rw [hnodes, hmapeid]
    refine List.Nodup.map (fun a b hab => Option.some.inj hab) ?_
    rw [hkeys]
    exact dedupFirstAux_nodup _ _ List.nodup_nil
  · intro c hc
    rw [hnodes] at hc
    obtain ⟨kv, hkv, rfl⟩ := List.mem_map.mp hc
    rcases foldRegister_mem (collectNodePairs pd) [] kv hkv with hin | ⟨d, hd, hv⟩
    · simp at hin
    · exact ⟨d, hd, hv⟩

/-- C6 witness: on the concrete input `[A, "CAUSES", B, "CAUSES", C]` the
reconstruction satisfies all four parts of the claim theorem, and the full
result is the path with nodes `{A, B, C}` and edges
`[(A, CAUSES, B), (B, CAUSES, C)]`. -/
theorem c6_witness :
    (((PathResponse.from_neo4j_path goodPath).relationships.map
        (fun r => (r.start_node_id, r.type, r.end_node_id)) = specEdges goodPath)
    ∧ ((PathResponse.from_neo4j_path goodPath).nodes.map (fun c => c.elementId)
        = (dedupFirst (specNodeIds goodPath)).map some)
    ∧ ((PathResponse.from_neo4j_path goodPath).nodes.map (fun c => c.elementId)).Nodup
    ∧ (∀ c ∈ (PathResponse.from_neo4j_path goodPath).nodes,
        ∃ d ∈ collectNodePairs goodPath, ConceptModel.modelValidate d = some c))
    ∧ PathResponse.from_neo4j_path goodPath
        = ⟨[conceptA, conceptB, conceptC],
           [⟨none, "A", "B", "CAUSES", []⟩, ⟨none, "B", "C", "CAUSES", []⟩]⟩ := by
  have h := c6_path_reconstruction goodPath rfl
  exact ⟨h, rfl⟩
